import Mathlib

/-!
Verification development for the SlackAgent repository.

The file shallowly embeds the retrieval and pipeline code of the repository:

* `src/db/search.py` — channel-scoped semantic search (`search`), the
  unscoped variant (`search_all_channels`) and the neighbor expansion
  (`search_messages_with_neighbors`).  SQL queries are modelled by list
  filtering, sorting and truncation over an explicit store of rows; the
  embedding service is modelled by a distance oracle carried by the store,
  and the I/O performed by `search` is recorded as an explicit effect trace.
* `src/utils/llm.py` — `get_ticket_details` and its fail-safe branch.
* `src/utils/jira_operations.py` — `get_all_issues` and `create_issue`
  (the POST requests actually issued are returned as a list).
* `src/slack_activities/activities/slackagent_activities.py` and
  `src/slack_workflows/workflows/slackagent_workflow.py` — the activities
  and the sequential workflow that chains them.

Python dictionaries keyed by message id are modelled by association lists
(`List (Nat × String)`) with the exact insertion discipline of the code:
plain assignment for the seeding loop, insert-if-absent for the neighbor
and channel-tail loops.
-/

namespace SlackAgent

/-- Python `str.strip()`: remove whitespace from both ends. -/
def pyStrip (s : String) : String :=
  String.mk (((s.data.dropWhile Char.isWhitespace).reverse.dropWhile
    Char.isWhitespace).reverse)

/-- A row of the `messages` table (src/db/setup.py): `id` is the primary
key, `created_at` is the chronological ordering key. -/
structure Msg where
  id : Nat
  channel_id : String
  user_id : String
  text : String
  created_at : Int
  deriving Repr, DecidableEq

/-- The vector store together with the embedding service: `rows` is the
content of the `messages` table and `dist q m` is the cosine distance
`m.embedding <=> embed(q)` computed by the SQL operator for the embedded
query text `q`. -/
structure Store where
  rows : List Msg
  dist : String → Msg → ℚ

/-- A row returned by the channel-scoped search query in
src/db/search.py lines 86-103: `SELECT id, message, created_at, distance`. -/
structure Hit where
  id : Nat
  message : String
  created_at : Int
  distance : ℚ
  deriving Repr, DecidableEq

/-- I/O operations performed by `search`, in order: contacting the
embedding service, then querying the database. -/
inductive Effect where
  | embed (q : String)
  | dbQuery
  deriving Repr, DecidableEq

/-- Comparison used by `ORDER BY distance` (ascending). -/
def distLE (a b : Hit) : Prop := a.distance ≤ b.distance

instance : DecidableRel distLE := fun a b =>
  inferInstanceAs (Decidable (a.distance ≤ b.distance))

instance : IsTotal Hit distLE := ⟨fun a b => le_total a.distance b.distance⟩

instance : IsTrans Hit distLE := ⟨fun _ _ _ hab hbc => le_trans hab hbc⟩

/-- Comparison used by `ORDER BY created_at ASC`. -/
def createdLE (a b : Msg) : Prop := a.created_at ≤ b.created_at

instance : DecidableRel createdLE := fun a b =>
  inferInstanceAs (Decidable (a.created_at ≤ b.created_at))

instance : IsTotal Msg createdLE := ⟨fun a b => le_total a.created_at b.created_at⟩

instance : IsTrans Msg createdLE := ⟨fun _ _ _ hab hbc => le_trans hab hbc⟩

/-- Comparison used by `ORDER BY created_at DESC`. -/
def createdGE (a b : Msg) : Prop := b.created_at ≤ a.created_at

instance : DecidableRel createdGE := fun a b =>
  inferInstanceAs (Decidable (b.created_at ≤ a.created_at))

instance : IsTotal Msg createdGE := ⟨fun a b => le_total b.created_at a.created_at⟩

instance : IsTrans Msg createdGE := ⟨fun _ _ _ hab hbc => le_trans hbc hab⟩

/-- The row-to-result projection of the channel-scoped search query:
`SELECT id, message, created_at, embedding <=> (%s)::vector AS distance`. -/
def mkHit (store : Store) (q : String) (m : Msg) : Hit :=
  { id := m.id, message := m.text, created_at := m.created_at,
    distance := store.dist q m }

/-- The SQL executed by `search` (src/db/search.py lines 86-103): filter by
channel (and by `distance < threshold` when a threshold is supplied),
`ORDER BY distance`, `LIMIT top_k`. -/
def sqlSearchChannel (store : Store) (q ch : String) (k : Int)
    (threshold : Option ℚ) : List Hit :=
  let hits := (store.rows.filter (fun m => m.channel_id == ch)).map (mkHit store q)
  let hits := match threshold with
    | some t => hits.filter (fun h => decide (h.distance < t))
    | none => hits
  (List.insertionSort distLE hits).take k.toNat

/-- The `top_k` defaulting of src/db/search.py lines 58-59 (and the
identical lines 328-329): when `top_k` is `None` it becomes 100 without a
threshold and 1000 with one. -/
def defaultTopK (top_k : Option Int) (threshold : Option ℚ) : Int :=
  top_k.getD (match threshold with | none => 100 | some _ => 1000)

/-- src/db/search.py lines 25-120, `search`: validate the query, default
`top_k` (100 without a threshold, 1000 with one), validate `top_k` and the
channel, then embed the stripped query and run the channel-scoped SQL
query.  The first component records the I/O actually performed. -/
def search (store : Store) (query channel_id : String) (top_k : Option Int)
    (threshold : Option ℚ) : List Effect × List Hit :=
  if pyStrip query = "" then ([], [])
  else if defaultTopK top_k threshold ≤ 0 then ([], [])
  else if pyStrip channel_id = "" then ([], [])
  else ([Effect.embed (pyStrip query), Effect.dbQuery],
        sqlSearchChannel store (pyStrip query) (pyStrip channel_id)
          (defaultTopK top_k threshold) threshold)

/-- The SQL executed by `search_all_channels` (src/db/search.py lines
348-364): same as the channel-scoped query but without the channel filter. -/
def sqlSearchAll (store : Store) (q : String) (k : Int)
    (threshold : Option ℚ) : List Hit :=
  let hits := store.rows.map (mkHit store q)
  let hits := match threshold with
    | some t => hits.filter (fun h => decide (h.distance < t))
    | none => hits
  (List.insertionSort distLE hits).take k.toNat

/-- src/db/search.py lines 297-389, `search_all_channels`: same validation
and defaulting as `search` (no channel argument), returning only the
message texts. -/
def search_all_channels (store : Store) (query : String) (top_k : Option Int)
    (threshold : Option ℚ) : List Effect × List String :=
  if pyStrip query = "" then ([], [])
  else if defaultTopK top_k threshold ≤ 0 then ([], [])
  else ([Effect.embed (pyStrip query), Effect.dbQuery],
        (sqlSearchAll store (pyStrip query) (defaultTopK top_k threshold)
          threshold).map Hit.message)

/-- The per-hit neighbor query of `search_messages_with_neighbors`
(src/db/search.py lines 137-143): messages of the channel strictly after
timestamp `t`, `ORDER BY created_at ASC LIMIT 5`.  Note the code passes
the raw, untrimmed channel id here. -/
def neighborsAfter (store : Store) (ch : String) (t : Int) : List Msg :=
  (List.insertionSort createdLE
    (store.rows.filter (fun m => m.channel_id == ch && decide (t < m.created_at)))).take 5

/-- The channel-tail query of `search_messages_with_neighbors`
(src/db/search.py lines 156-162): `ORDER BY created_at DESC LIMIT 5`. -/
def latestMessages (store : Store) (ch : String) : List Msg :=
  (List.insertionSort createdGE
    (store.rows.filter (fun m => m.channel_id == ch))).take 5

/-! ### The Python dictionary `unique_messages` keyed by message id -/

/-- Keys of an id-keyed dictionary modelled as an association list. -/
def keys (d : List (Nat × String)) : List Nat := d.map Prod.fst

/-- Membership test `k in unique_messages`. -/
def hasKey (d : List (Nat × String)) (k : Nat) : Bool :=
  d.any (fun p => p.1 == k)

/-- Plain dictionary assignment `unique_messages[k] = v` as used by the
seeding loop (src/db/search.py line 131): overwrites in place when the key
exists, otherwise appends. -/
def dictSet (d : List (Nat × String)) (k : Nat) (v : String) :
    List (Nat × String) :=
  if hasKey d k then d.map (fun p => if p.1 == k then (k, v) else p)
  else d ++ [(k, v)]

/-- Guarded insertion `if k not in unique_messages: unique_messages[k] = v`
as used by the neighbor and channel-tail loops (src/db/search.py lines
148-149 and 167-168). -/
def dictInsertIfAbsent (d : List (Nat × String)) (k : Nat) (v : String) :
    List (Nat × String) :=
  if hasKey d k then d else d ++ [(k, v)]

/-- Folding `dictInsertIfAbsent` over a batch of fetched `(id, text)` pairs. -/
def insertAll (d : List (Nat × String)) (l : List (Nat × String)) :
    List (Nat × String) :=
  l.foldl (fun d p => dictInsertIfAbsent d p.1 p.2) d

/-- The `(id, message)` pairs of a hit list. -/
def hitPairs (results : List Hit) : List (Nat × String) :=
  results.map (fun h => (h.id, h.message))

/-- The `(id, message)` pairs of a list of table rows. -/
def msgPairs (l : List Msg) : List (Nat × String) :=
  l.map (fun m => (m.id, m.text))

/-- The seeding loop of `search_messages_with_neighbors` (src/db/search.py
lines 129-131): every hit written into the dictionary by plain assignment. -/
def seedDict (store : Store) (q ch : String) (k : Option Int)
    (threshold : Option ℚ) : List (Nat × String) :=
  ((search store q ch k threshold).2).foldl
    (fun d h => dictSet d h.id h.message) []

/-- src/db/search.py lines 122-176, `search_messages_with_neighbors`: the
final state of the dictionary `unique_messages` after seeding with the
search hits, inserting for each hit the up-to-5 chronologically following
messages of the channel, and inserting the up-to-5 most recent messages of
the channel.  Note the inner queries use the raw channel id while `search`
trims it. -/
def smwnDict (store : Store) (q ch : String) (k : Option Int)
    (threshold : Option ℚ) : List (Nat × String) :=
  insertAll
    (((search store q ch k threshold).2).foldl
      (fun d h => insertAll d (msgPairs (neighborsAfter store ch h.created_at)))
      (seedDict store q ch k threshold))
    (msgPairs (latestMessages store ch))

/-- The return value `list(unique_messages.values())` of
`search_messages_with_neighbors`. -/
def search_messages_with_neighbors (store : Store) (q ch : String)
    (k : Option Int) (threshold : Option ℚ) : List String :=
  (smwnDict store q ch k threshold).map Prod.snd

/-- Lookup of the text stored for a message id: the value any fetched pair
carries for that id when the table respects its primary key. -/
def textOf (store : Store) (i : Nat) : Option String :=
  (store.rows.find? (fun m => m.id == i)).map Msg.text

/-- The three sources of the context set, concatenated in program order:
the search hits, the per-hit forward neighbors, and the channel tail. -/
def allPairs (store : Store) (q ch : String) (k : Option Int)
    (threshold : Option ℚ) : List (Nat × String) :=
  hitPairs ((search store q ch k threshold).2)
    ++ (((search store q ch k threshold).2).map
          (fun h => msgPairs (neighborsAfter store ch h.created_at))).flatten
    ++ msgPairs (latestMessages store ch)

/-! ### The ticket decision (src/utils/llm.py, src/schema/tickit_details_schema.py) -/

/-- src/schema/tickit_details_schema.py: the pydantic schema the model
output is parsed into. -/
structure TicketDetailsSchema where
  ticket_id : String
  ticket_title : String
  ticket_description : String
  ticket_status : String
  ticket_priority : String
  ticket_assignee : String
  should_create_ticket : Bool
  deriving Repr, DecidableEq

/-- The dictionary returned by `get_ticket_details`: either `result.dict()`
with every schema field present, or the failure dictionary whose only key
is `should_create_ticket`; absent keys are `none`. -/
structure TicketDict where
  ticket_id : Option String := none
  ticket_title : Option String := none
  ticket_description : Option String := none
  ticket_status : Option String := none
  ticket_priority : Option String := none
  ticket_assignee : Option String := none
  should_create_ticket : Bool
  deriving Repr, DecidableEq

/-- Outcome of the LangChain invocation `(prompt | model | parser).invoke`
in src/utils/llm.py lines 44-45: either a parsed schema, or any exception
raised by the model call or the output parser (failure, timeout,
unparseable output). -/
inductive LLMOutcome where
  | ok (r : TicketDetailsSchema)
  | error (e : String)
  deriving Repr, DecidableEq

/-- `result.dict()` on the success path of `get_ticket_details`. -/
def ticketDictOfSchema (r : TicketDetailsSchema) : TicketDict :=
  { ticket_id := some r.ticket_id, ticket_title := some r.ticket_title,
    ticket_description := some r.ticket_description,
    ticket_status := some r.ticket_status,
    ticket_priority := some r.ticket_priority,
    ticket_assignee := some r.ticket_assignee,
    should_create_ticket := r.should_create_ticket }

/-- The failure dictionary returned by the except branch of
`get_ticket_details` (src/utils/llm.py line 48). -/
def failure_ticket_dict : TicketDict := { should_create_ticket := false }

/-- src/utils/llm.py lines 12-50, `get_ticket_details`: the chain
invocation is wrapped in try/except; any exception yields the failure
dictionary, otherwise the parsed schema is returned as a dictionary. -/
def get_ticket_details : LLMOutcome → TicketDict
  | .ok r => ticketDictOfSchema r
  | .error _ => failure_ticket_dict

/-! ### Jira operations (src/utils/jira_operations.py) -/

/-- Outcome of an HTTP request made through `requests`. -/
inductive HttpResult (α : Type) where
  | ok (a : α)
  | httpError (e : String)
  deriving Repr, DecidableEq

/-- An issue as returned by the Jira search endpoint: the `summary` field
and the `status.name` field, each possibly missing. -/
structure JiraIssueRaw where
  summary : Option String
  status_name : Option String
  deriving Repr, DecidableEq

/-- The shape `get_all_issues` formats each issue into. -/
structure FormattedIssue where
  summary : String
  status : String
  deriving Repr, DecidableEq

/-- Formatting of one issue (src/utils/jira_operations.py lines 64-70):
missing fields default to the empty string. -/
def formatIssue (i : JiraIssueRaw) : FormattedIssue :=
  { summary := i.summary.getD "", status := i.status_name.getD "" }

/-- src/utils/jira_operations.py lines 33-76, `get_all_issues`: on a
successful response the issues are formatted; on an HTTP error the code
logs and re-raises, so the error propagates to the caller. -/
def get_all_issues (resp : HttpResult (List JiraIssueRaw)) :
    Except String (List FormattedIssue) :=
  match resp with
  | .ok issues => .ok (issues.map formatIssue)
  | .httpError e => .error e

/-- The JSON payload fields of the POST issued by `create_issue`
(src/utils/jira_operations.py lines 98-114). -/
structure JiraFields where
  summary : String
  description : String
  priority : String
  assignee : Option String
  deriving Repr, DecidableEq

/-- Payload construction in `create_issue`: `.get` with defaults for the
descriptive fields, and the assignee only when truthy. -/
def jiraPayload (td : TicketDict) : JiraFields :=
  { summary := td.ticket_title.getD "",
    description := td.ticket_description.getD "",
    priority := td.ticket_priority.getD "Medium",
    assignee := match td.ticket_assignee with
      | some a => if a = "" then none else some a
      | none => none }

/-- The POST requests issued by one execution of `create_issue`
(src/utils/jira_operations.py lines 116-122): exactly one when
`should_create_ticket` is truthy, none otherwise.  The code contains no
idempotency key or completion marker; each execution decides afresh. -/
def create_issue_posts (td : TicketDict) : List JiraFields :=
  if td.should_create_ticket then [jiraPayload td] else []

/-! ### Pipeline activities and workflow
(src/slack_activities/activities/slackagent_activities.py,
src/slack_workflows/workflows/slackagent_workflow.py, src/run_workflow.py) -/

/-- The metadata dictionary threaded through the workflow, seeded by
src/run_workflow.py line 14 and extended by each activity. -/
structure PipelineMeta where
  name : String
  query : String
  top_k : Int
  channel_id : String
  threshold : ℚ
  messages : Option (List String) := none
  existing_tickets : Option (List FormattedIssue) := none
  ticket_details : Option TicketDict := none
  deriving Repr, DecidableEq

/-- Activity `say_hello`: prints and returns the metadata unchanged. -/
def say_hello (md : PipelineMeta) : PipelineMeta := md

/-- Activity `query_vector_db` (slackagent_activities.py lines 13-23):
calls `search_messages_with_neighbors` with the metadata query, top_k and
channel — and a hard-coded threshold of 0.5, ignoring the threshold field
of the metadata. -/
def query_vector_db (store : Store) (md : PipelineMeta) : PipelineMeta :=
  { md with messages := some (search_messages_with_neighbors store
      md.query md.channel_id (some md.top_k) (some (1/2))) }

/-- Activity `query_jira` (slackagent_activities.py lines 26-32): stores
`get_all_issues()` in the metadata; there is no exception handling, so a
failure of the fetch propagates out of the activity. -/
def query_jira (resp : HttpResult (List JiraIssueRaw)) (md : PipelineMeta) :
    Except String PipelineMeta :=
  match get_all_issues resp with
  | .ok ts => .ok { md with existing_tickets := some ts }
  | .error e => .error e

/-- Activity `call_llm_for_ticket_details` (slackagent_activities.py lines
34-41): stores the decision of `get_ticket_details`; total, since
`get_ticket_details` catches every exception of the chain invocation. -/
def call_llm_for_ticket_details (outcome : LLMOutcome) (md : PipelineMeta) :
    PipelineMeta :=
  { md with ticket_details := some (get_ticket_details outcome) }

/-- Activity `create_jira_ticket` (slackagent_activities.py lines 43-46)
running `create_issue` on the stored ticket details: returns the metadata
together with the POST requests issued; an HTTP error of the POST is
re-raised by `create_issue`. -/
def create_jira_ticket (post : HttpResult Unit) (md : PipelineMeta) :
    Except String (PipelineMeta × List JiraFields) :=
  match md.ticket_details with
  | none => .error "KeyError: ticket_details"
  | some td =>
    if td.should_create_ticket then
      match post with
      | .ok _ => .ok (md, [jiraPayload td])
      | .httpError e => .error e
    else .ok (md, [])

/-- Activity `log_workflow_result`: prints and returns the metadata. -/
def log_workflow_result (md : PipelineMeta) : PipelineMeta := md

/-- src/slack_workflows/workflows/slackagent_workflow.py: the six
activities executed in strict sequence; a raising activity fails the run.
The collaborator outcomes (store, Jira fetch, model call, Jira POST) are
explicit parameters.  The second component of a successful result is the
list of issue-creation POSTs performed by the run. -/
def runPipeline (store : Store) (jira : HttpResult (List JiraIssueRaw))
    (llm : LLMOutcome) (post : HttpResult Unit) (md0 : PipelineMeta) :
    Except String (PipelineMeta × List JiraFields) :=
  let md := say_hello md0
  let md := query_vector_db store md
  match query_jira jira md with
  | .error e => .error e
  | .ok md =>
    let md := call_llm_for_ticket_details llm md
    match create_jira_ticket post md with
    | .error e => .error e
    | .ok (md, posts) => .ok (log_workflow_result md, posts)

/-! ### Lemmas about the id-keyed dictionary -/

/-- A list of pairs whose value is determined by its key through `f`; this
is the invariant the message table guarantees for every fetched pair once
ids are unique. -/
def ValDet (f : Nat → Option String) (l : List (Nat × String)) : Prop :=
  ∀ p ∈ l, f p.1 = some p.2

theorem hasKey_iff {d : List (Nat × String)} {k : Nat} :
    hasKey d k = true ↔ k ∈ keys d := by
  simp [hasKey, keys, List.any_eq_true, List.mem_map]

theorem keys_dictSet (d : List (Nat × String)) (k : Nat) (v : String) :
    keys (dictSet d k v) = if hasKey d k then keys d else keys d ++ [k] := by
  unfold dictSet
  by_cases h : hasKey d k
  · rw [if_pos h, if_pos h]
    simp only [keys, List.map_map]
    refine List.map_congr_left ?_
    intro p _
    by_cases hpk : (p.1 == k) = true
    · simp only [Function.comp_apply, if_pos hpk]
      exact (beq_iff_eq.mp hpk).symm
    · simp only [Function.comp_apply, if_neg hpk]
  · rw [if_neg h, if_neg h]
    simp [keys]

theorem keys_dictInsertIfAbsent (d : List (Nat × String)) (k : Nat) (v : String) :
    keys (dictInsertIfAbsent d k v)
      = if hasKey d k then keys d else keys d ++ [k] := by
  unfold dictInsertIfAbsent
  by_cases h : hasKey d k
  · rw [if_pos h, if_pos h]
  · rw [if_neg h, if_neg h]
    simp [keys]

theorem mem_keys_dictSet {d : List (Nat × String)} {k : Nat} {v : String}
    {a : Nat} : a ∈ keys (dictSet d k v) ↔ a ∈ keys d ∨ a = k := by
  rw [keys_dictSet]
  by_cases h : hasKey d k
  · rw [if_pos h]
    constructor
    · exact Or.inl
    · rintro (h' | rfl)
      · exact h'
      · exact hasKey_iff.mp h
  · rw [if_neg h]
    simp

theorem mem_keys_dictInsertIfAbsent {d : List (Nat × String)} {k : Nat}
    {v : String} {a : Nat} :
    a ∈ keys (dictInsertIfAbsent d k v) ↔ a ∈ keys d ∨ a = k := by
  rw [keys_dictInsertIfAbsent]
  by_cases h : hasKey d k
  · rw [if_pos h]
    constructor
    · exact Or.inl
    · rintro (h' | rfl)
      · exact h'
      · exact hasKey_iff.mp h
  · rw [if_neg h]
    simp

theorem mem_dictSet {d : List (Nat × String)} {k : Nat} {v : String}
    {p : Nat × String} (hp : p ∈ dictSet d k v) : p ∈ d ∨ p = (k, v) := by
  unfold dictSet at hp
  by_cases h : hasKey d k
  · rw [if_pos h] at hp
    rcases List.mem_map.mp hp with ⟨q, hq, he⟩
    by_cases hqk : (q.1 == k) = true
    · rw [if_pos hqk] at he
      exact Or.inr he.symm
    · rw [if_neg hqk] at he
      exact Or.inl (he ▸ hq)
  · rw [if_neg h] at hp
    rcases List.mem_append.mp hp with h' | h'
    · exact Or.inl h'
    · exact Or.inr (List.mem_singleton.mp h')

theorem mem_dictInsertIfAbsent {d : List (Nat × String)} {k : Nat}
    {v : String} {p : Nat × String} (hp : p ∈ dictInsertIfAbsent d k v) :
    p ∈ d ∨ p = (k, v) := by
  unfold dictInsertIfAbsent at hp
  by_cases h : hasKey d k
  · rw [if_pos h] at hp
    exact Or.inl hp
  · rw [if_neg h] at hp
    rcases List.mem_append.mp hp with h' | h'
    · exact Or.inl h'
    · exact Or.inr (List.mem_singleton.mp h')

theorem nodup_keys_dictSet {d : List (Nat × String)} {k : Nat} {v : String}
    (h : (keys d).Nodup) : (keys (dictSet d k v)).Nodup := by
  rw [keys_dictSet]
  by_cases hk : hasKey d k
  · rwa [if_pos hk]
  · rw [if_neg hk]
    have hnm : k ∉ keys d := fun hm => hk (hasKey_iff.mpr hm)
    simp [List.nodup_append, h, hnm]

theorem nodup_keys_dictInsertIfAbsent {d : List (Nat × String)} {k : Nat}
    {v : String} (h : (keys d).Nodup) :
    (keys (dictInsertIfAbsent d k v)).Nodup := by
  rw [keys_dictInsertIfAbsent]
  by_cases hk : hasKey d k
  · rwa [if_pos hk]
  · rw [if_neg hk]
    have hnm : k ∉ keys d := fun hm => hk (hasKey_iff.mpr hm)
    simp [List.nodup_append, h, hnm]

theorem insertAll_cons (d : List (Nat × String)) (p : Nat × String)
    (l : List (Nat × String)) :
    insertAll d (p :: l) = insertAll (dictInsertIfAbsent d p.1 p.2) l := rfl

theorem insertAll_append (d l₁ l₂ : List (Nat × String)) :
    insertAll d (l₁ ++ l₂) = insertAll (insertAll d l₁) l₂ := by
  simp [insertAll, List.foldl_append]

theorem mem_keys_insertAll {a : Nat} (l d : List (Nat × String)) :
    a ∈ keys (insertAll d l) ↔ a ∈ keys d ∨ a ∈ keys l := by
  induction l generalizing d with
  | nil => simp [insertAll, keys]
  | cons p l ih =>
    rw [insertAll_cons, ih, mem_keys_dictInsertIfAbsent]
    have : keys (p :: l) = p.1 :: keys l := rfl
    rw [this, List.mem_cons]
    tauto

theorem mem_insertAll {d l : List (Nat × String)} {p : Nat × String}
    (hp : p ∈ insertAll d l) : p ∈ d ∨ p ∈ l := by
  induction l generalizing d with
  | nil => exact Or.inl hp
  | cons q l ih =>
    rw [insertAll_cons] at hp
    rcases ih hp with h | h
    · rcases mem_dictInsertIfAbsent h with h' | h'
      · exact Or.inl h'
      · exact Or.inr (h' ▸ List.mem_cons_self q l)
    · exact Or.inr (List.mem_cons_of_mem q h)

theorem nodup_keys_insertAll {d : List (Nat × String)}
    (l : List (Nat × String)) (h : (keys d).Nodup) :
    (keys (insertAll d l)).Nodup := by
  induction l generalizing d with
  | nil => exact h
  | cons p l ih =>
    rw [insertAll_cons]
    exact ih (nodup_keys_dictInsertIfAbsent h)

theorem valdet_dictInsertIfAbsent {f : Nat → Option String}
    {d : List (Nat × String)} {k : Nat} {v : String} (hd : ValDet f d)
    (hv : f k = some v) : ValDet f (dictInsertIfAbsent d k v) := by
  intro p hp
  rcases mem_dictInsertIfAbsent hp with h | h
  · exact hd p h
  · cases h
    exact hv

theorem valdet_insertAll {f : Nat → Option String}
    (l d : List (Nat × String)) (hd : ValDet f d) (hl : ValDet f l) :
    ValDet f (insertAll d l) := by
  induction l generalizing d with
  | nil => exact hd
  | cons p l ih =>
    rw [insertAll_cons]
    exact ih _ (valdet_dictInsertIfAbsent hd (hl p (List.mem_cons_self p l)))
      (fun q hq => hl q (List.mem_cons_of_mem p hq))

theorem mem_iff_of_valdet {f : Nat → Option String} {d : List (Nat × String)}
    (hd : ValDet f d) (p : Nat × String) :
    p ∈ d ↔ p.1 ∈ keys d ∧ f p.1 = some p.2 := by
  constructor
  · intro hp
    exact ⟨List.mem_map_of_mem Prod.fst hp, hd p hp⟩
  · rintro ⟨hk, hv⟩
    rcases List.mem_map.mp hk with ⟨q, hq, he⟩
    have h2 : f p.1 = some q.2 := he ▸ hd q hq
    rw [hv] at h2
    have h3 : q.2 = p.2 := (Option.some.inj h2).symm
    have h4 : q = p := Prod.ext he h3
    exact h4 ▸ hq

theorem mem_insertAll_iff {f : Nat → Option String}
    (l d : List (Nat × String)) (hd : ValDet f d) (hl : ValDet f l)
    (p : Nat × String) :
    p ∈ insertAll d l ↔ (p.1 ∈ keys d ∨ p.1 ∈ keys l) ∧ f p.1 = some p.2 := by
  rw [mem_iff_of_valdet (valdet_insertAll l d hd hl) p, mem_keys_insertAll]

theorem dictSet_eq_of_valdet {f : Nat → Option String}
    {d : List (Nat × String)} {k : Nat} {v : String} (hd : ValDet f d)
    (hv : f k = some v) : dictSet d k v = dictInsertIfAbsent d k v := by
  unfold dictSet dictInsertIfAbsent
  by_cases h : hasKey d k
  · rw [if_pos h, if_pos h]
    have hfix : ∀ p ∈ d, (if p.1 == k then (k, v) else p) = p := by
      intro p hp
      by_cases hpk : (p.1 == k) = true
      · rw [if_pos hpk]
        obtain ⟨p1, p2⟩ := p
        have h1 : p1 = k := beq_iff_eq.mp hpk
        subst h1
        have h2 : f p1 = some p2 := hd (p1, p2) hp
        rw [hv] at h2
        rw [Option.some.inj h2]
      · rw [if_neg hpk]
    rw [List.map_congr_left hfix]
    exact List.map_id' d
  · rw [if_neg h, if_neg h]

theorem seedFold_eq_insertAll {f : Nat → Option String} (results : List Hit)
    (d : List (Nat × String)) (hd : ValDet f d)
    (hr : ValDet f (hitPairs results)) :
    results.foldl (fun d h => dictSet d h.id h.message) d
      = insertAll d (hitPairs results) := by
  induction results generalizing d with
  | nil => rfl
  | cons h results ih =>
    have hv : f h.id = some h.message :=
      hr (h.id, h.message) (List.mem_cons_self _ _)
    rw [List.foldl_cons, dictSet_eq_of_valdet hd hv,
      ih _ (valdet_dictInsertIfAbsent hd hv)
        (fun q hq => hr q (List.mem_cons_of_mem _ hq))]
    rfl

theorem foldl_insertAll_eq (g : Hit → List (Nat × String))
    (results : List Hit) (d : List (Nat × String)) :
    results.foldl (fun d h => insertAll d (g h)) d
      = insertAll d ((results.map g).flatten) := by
  induction results generalizing d with
  | nil => rfl
  | cons h results ih =>
    rw [List.foldl_cons, ih, List.map_cons, List.flatten_cons, insertAll_append]

theorem insertAll_eq_append_of_nodup :
    ∀ (l d : List (Nat × String)), (keys (d ++ l)).Nodup →
      insertAll d l = d ++ l := by
  intro l
  induction l with
  | nil => intro d _; simp [insertAll]
  | cons p l ih =>
    intro d hnd
    have hnotin : p.1 ∉ keys d := by
      intro hmem
      have : ¬ (keys (d ++ p :: l)).Nodup := by
        simp only [keys, List.map_append, List.nodup_append]
        intro hc
        exact hc.2.2 hmem (by simp)
      exact this hnd
    have hnk : hasKey d p.1 = false := by
      rw [Bool.eq_false_iff]
      intro hk
      exact hnotin (hasKey_iff.mp hk)
    rw [insertAll_cons]
    unfold dictInsertIfAbsent
    rw [hnk]
    simp only [Bool.false_eq_true, if_false]
    have hre : (d ++ [p]) ++ l = d ++ p :: l := by simp
    rw [ih (d ++ [p]) (by rw [hre]; exact hnd), hre]

/-! ### Membership facts about the fetched rows -/

theorem find?_eq_some_of_nodup_ids :
    ∀ (l : List Msg), (l.map Msg.id).Nodup → ∀ m ∈ l,
      l.find? (fun x => x.id == m.id) = some m := by
  intro l
  induction l with
  | nil => intro _ m hm; cases hm
  | cons r l ih =>
    intro hnd m hm
    rw [List.map_cons, List.nodup_cons] at hnd
    rcases List.mem_cons.mp hm with rfl | hm'
    · exact List.find?_cons_of_pos _ (by simp)
    · have hne : (r.id == m.id) = false := by
        rw [beq_eq_false_iff_ne]
        intro he
        exact hnd.1 (he ▸ List.mem_map_of_mem Msg.id hm')
      rw [List.find?_cons_of_neg _ (by simp [hne])]
      exact ih hnd.2 m hm'

theorem textOf_eq_some {store : Store} (hnd : (store.rows.map Msg.id).Nodup)
    {m : Msg} (hm : m ∈ store.rows) : textOf store m.id = some m.text := by
  unfold textOf
  rw [find?_eq_some_of_nodup_ids store.rows hnd m hm]
  rfl

theorem mem_sqlSearchChannel {store : Store} {q ch : String} {k : Int}
    {T : Option ℚ} {h : Hit} (hh : h ∈ sqlSearchChannel store q ch k T) :
    ∃ m ∈ store.rows, h = mkHit store q m := by
  unfold sqlSearchChannel at hh
  have h1 := (List.take_sublist _ _).subset hh
  have h2 := (List.perm_insertionSort distLE _).mem_iff.mp h1
  have h3 : h ∈ (store.rows.filter (fun m => m.channel_id == ch)).map
      (mkHit store q) := by
    rcases T with _ | t
    · exact h2
    · exact List.mem_of_mem_filter h2
  rcases List.mem_map.mp h3 with ⟨m, hm, he⟩
  exact ⟨m, List.mem_of_mem_filter hm, he.symm⟩

theorem mem_search {store : Store} {q ch : String} {k : Option Int}
    {T : Option ℚ} {h : Hit} (hh : h ∈ (search store q ch k T).2) :
    ∃ m ∈ store.rows, h = mkHit store (pyStrip q) m := by
  unfold search at hh
  by_cases h1 : pyStrip q = ""
  · rw [if_pos h1] at hh; cases hh
  · rw [if_neg h1] at hh
    by_cases h2 : defaultTopK k T ≤ 0
    · rw [if_pos h2] at hh; cases hh
    · rw [if_neg h2] at hh
      by_cases h3 : pyStrip ch = ""
      · rw [if_pos h3] at hh; cases hh
      · rw [if_neg h3] at hh
        exact mem_sqlSearchChannel hh

theorem mem_neighborsAfter {store : Store} {ch : String} {t : Int} {m : Msg}
    (hm : m ∈ neighborsAfter store ch t) :
    m ∈ store.rows ∧ m.channel_id = ch ∧ t < m.created_at := by
  unfold neighborsAfter at hm
  have h1 := (List.take_sublist _ _).subset hm
  have h2 := (List.perm_insertionSort createdLE _).mem_iff.mp h1
  rw [List.mem_filter] at h2
  refine ⟨h2.1, ?_, ?_⟩
  · have := h2.2
    simp only [Bool.and_eq_true, beq_iff_eq, decide_eq_true_eq] at this
    exact this.1
  · have := h2.2
    simp only [Bool.and_eq_true, beq_iff_eq, decide_eq_true_eq] at this
    exact this.2

theorem mem_latestMessages {store : Store} {ch : String} {m : Msg}
    (hm : m ∈ latestMessages store ch) :
    m ∈ store.rows ∧ m.channel_id = ch := by
  unfold latestMessages at hm
  have h1 := (List.take_sublist _ _).subset hm
  have h2 := (List.perm_insertionSort createdGE _).mem_iff.mp h1
  rw [List.mem_filter] at h2
  exact ⟨h2.1, by simpa using h2.2⟩

theorem valdet_hitPairs {store : Store} {q ch : String} {k : Option Int}
    {T : Option ℚ} (hnd : (store.rows.map Msg.id).Nodup) :
    ValDet (textOf store) (hitPairs ((search store q ch k T).2)) := by
  intro p hp
  rcases List.mem_map.mp hp with ⟨h, hh, he⟩
  rcases mem_search hh with ⟨m, hm, hmk⟩
  have : p = (m.id, m.text) := by rw [← he, hmk]; rfl
  rw [this]
  exact textOf_eq_some hnd hm

theorem valdet_msgPairs {store : Store} {l : List Msg}
    (hnd : (store.rows.map Msg.id).Nodup) (hsub : ∀ m ∈ l, m ∈ store.rows) :
    ValDet (textOf store) (msgPairs l) := by
  intro p hp
  rcases List.mem_map.mp hp with ⟨m, hm, he⟩
  rw [← he]
  exact textOf_eq_some hnd (hsub m hm)

theorem valdet_neighborFlatten {store : Store} {q ch : String}
    {k : Option Int} {T : Option ℚ} (hnd : (store.rows.map Msg.id).Nodup) :
    ValDet (textOf store)
      ((((search store q ch k T).2).map
        (fun h => msgPairs (neighborsAfter store ch h.created_at))).flatten) := by
  intro p hp
  rcases List.mem_flatten.mp hp with ⟨l, hl, hpl⟩
  rcases List.mem_map.mp hl with ⟨h, _, he⟩
  rw [← he] at hpl
  exact valdet_msgPairs hnd (fun m hm => (mem_neighborsAfter hm).1) p hpl

theorem valdet_allPairs {store : Store} {q ch : String} {k : Option Int}
    {T : Option ℚ} (hnd : (store.rows.map Msg.id).Nodup) :
    ValDet (textOf store) (allPairs store q ch k T) := by
  intro p hp
  unfold allPairs at hp
  rcases List.mem_append.mp hp with hp' | hp'
  · rcases List.mem_append.mp hp' with hp'' | hp''
    · exact valdet_hitPairs hnd p hp''
    · exact valdet_neighborFlatten hnd p hp''
  · exact valdet_msgPairs hnd (fun m hm => (mem_latestMessages hm).1) p hp'

/-! ### Structure of the neighbor-expansion dictionary -/

theorem smwnDict_eq_insertAll {store : Store} {q ch : String}
    {k : Option Int} {T : Option ℚ} (hnd : (store.rows.map Msg.id).Nodup) :
    smwnDict store q ch k T = insertAll [] (allPairs store q ch k T) := by
  unfold smwnDict seedDict
  rw [seedFold_eq_insertAll _ _ (fun p hp => absurd hp (List.not_mem_nil p))
      (valdet_hitPairs hnd)]
  rw [foldl_insertAll_eq]
  unfold allPairs
  rw [insertAll_append, insertAll_append]

theorem nodup_keys_smwnDict (store : Store) (q ch : String) (k : Option Int)
    (T : Option ℚ) : (keys (smwnDict store q ch k T)).Nodup := by
  unfold smwnDict seedDict
  apply nodup_keys_insertAll
  have hseed : ∀ (results : List Hit) (d : List (Nat × String)),
      (keys d).Nodup →
      (keys (results.foldl (fun d h => dictSet d h.id h.message) d)).Nodup := by
    intro results
    induction results with
    | nil => intro d hd; exact hd
    | cons h results ih =>
      intro d hd
      rw [List.foldl_cons]
      exact ih _ (nodup_keys_dictSet hd)
  have hbase : (keys (((search store q ch k T).2).foldl
      (fun d h => dictSet d h.id h.message) [])).Nodup :=
    hseed _ [] List.nodup_nil
  rw [foldl_insertAll_eq]
  exact nodup_keys_insertAll _ hbase

/-! ### Claim theorems -/

/-- A concrete decision with `should_create_ticket = true`, the shape the
model produces when it decides to create a ticket. -/
def tdTrue : TicketDict :=
  { ticket_id := some "", ticket_title := some "Build WebSocket Connection",
    ticket_description := some "Create a WebSocket connection to the Slack server",
    ticket_status := some "Open", ticket_priority := some "High",
    ticket_assignee := some "Unassigned", should_create_ticket := true }

/-- C1 counterexample: executing the `TicketResolved` step
(`create_jira_ticket`, which runs `create_issue`) twice on the same
decision with `should_create_ticket = true` issues two `createIssue`
POST requests, not one.  The code contains no idempotency key, completion
marker or any other retry guard around the POST, so a re-executed step
performs the external call again. -/
theorem C1_counterexample :
    (create_issue_posts tdTrue ++ create_issue_posts tdTrue).length = 2
    ∧ (create_issue_posts tdTrue ++ create_issue_posts tdTrue).length ≠ 1 := by
  constructor
  · rfl
  · decide

/-- C1 amended: each single execution of the step performs exactly one
`createIssue` call when `should_create_ticket` is true and none when it is
false; two executions of the step perform two calls (the step is not
idempotent under re-execution). -/
theorem C1_amended_each_execution_posts_once (td : TicketDict) :
    (create_issue_posts td).length = (if td.should_create_ticket then 1 else 0)
    ∧ (create_issue_posts td ++ create_issue_posts td).length
        = (if td.should_create_ticket then 2 else 0) := by
  unfold create_issue_posts
  by_cases h : td.should_create_ticket <;> simp [h]

/-- C3: when the model call raises (failure, timeout, unparseable output),
`get_ticket_details` returns the fail-safe dictionary with
`should_create_ticket = false` and no descriptive fields, the activity does
not raise, and the whole pipeline still runs to completion, performing no
`createIssue` POST. -/
theorem C3_llm_failure_fail_safe (store : Store) (issues : List JiraIssueRaw)
    (post : HttpResult Unit) (md0 : PipelineMeta) (e : String) :
    get_ticket_details (LLMOutcome.error e) = failure_ticket_dict
    ∧ failure_ticket_dict.should_create_ticket = false
    ∧ failure_ticket_dict.ticket_title = none
    ∧ failure_ticket_dict.ticket_description = none
    ∧ failure_ticket_dict.ticket_priority = none
    ∧ failure_ticket_dict.ticket_assignee = none
    ∧ runPipeline store (HttpResult.ok issues) (LLMOutcome.error e) post md0
        = Except.ok ({ md0 with
            messages := some (search_messages_with_neighbors store md0.query
              md0.channel_id (some md0.top_k) (some (1/2))),
            existing_tickets := some (issues.map formatIssue),
            ticket_details := some failure_ticket_dict }, []) :=
  ⟨rfl, rfl, rfl, rfl, rfl, rfl, rfl⟩

/-- The metadata record built by src/run_workflow.py line 14. -/
def mdEx : PipelineMeta :=
  { name := "sid",
    query := "create a ticket on for creating socket connection for slack connector",
    top_k := 5, channel_id := "C09G0HN0EKH", threshold := mkRat 1 2 }

/-- C4 counterexample: when the Jira fetch fails, `query_jira` propagates
the error instead of proceeding with an empty ticket list — `get_all_issues`
re-raises the HTTP error (src/utils/jira_operations.py line 76) and the
activity has no exception handler, so the step aborts. -/
theorem C4_counterexample :
    query_jira (HttpResult.httpError "HTTP 500") mdEx = Except.error "HTTP 500"
    ∧ query_jira (HttpResult.httpError "HTTP 500") mdEx
        ≠ Except.ok { mdEx with existing_tickets := some [] } := by
  refine ⟨rfl, ?_⟩
  intro h
  exact Except.noConfusion h

/-- C4 amended: a failure fetching existing open tickets propagates out of
the `Retrieved → ExistingTicketsFetched` step (the activity raises), rather
than degrading to an empty `existing_tickets` list. -/
theorem C4_amended_fetch_failure_propagates (e : String) (md : PipelineMeta) :
    query_jira (HttpResult.httpError e) md = Except.error e := rfl

/-- C8: in both the channel-scoped `search` and the unscoped
`search_all_channels`, omitting `top_k` behaves exactly like supplying 100
when no threshold is given, and like supplying 1000 when one is given. -/
theorem C8_default_top_k (store : Store) (q ch : String) (t : ℚ) :
    search store q ch none none = search store q ch (some 100) none
    ∧ search store q ch none (some t) = search store q ch (some 1000) (some t)
    ∧ search_all_channels store q none none
        = search_all_channels store q (some 100) none
    ∧ search_all_channels store q none (some t)
        = search_all_channels store q (some 1000) (some t) :=
  ⟨rfl, rfl, rfl, rfl⟩

/-- C9: the retrieval activity `query_vector_db` passes a hard-coded
threshold of 0.5 to `search_messages_with_neighbors` and ignores the
threshold field of the pipeline metadata: two metadata records differing
only in that field produce the same messages. -/
theorem C9_pipeline_threshold_ignored (store : Store) (md : PipelineMeta)
    (t₁ t₂ : ℚ) :
    (query_vector_db store { md with threshold := t₁ }).messages
      = (query_vector_db store { md with threshold := t₂ }).messages
    ∧ (query_vector_db store md).messages
        = some (search_messages_with_neighbors store md.query md.channel_id
            (some md.top_k) (some (1/2))) :=
  ⟨rfl, rfl⟩

/-- C7: an empty or whitespace-only query, an empty or whitespace-only
channel id, or a supplied non-positive `top_k` makes `search` return the
empty result with an empty effect trace: neither the embedding service nor
the database is contacted, and no default is substituted for the missing
identifier. -/
theorem C7_validation_before_io (store : Store) (q ch : String)
    (k : Option Int) (T : Option ℚ)
    (h : pyStrip q = "" ∨ pyStrip ch = "" ∨ ∃ n, k = some n ∧ n ≤ 0) :
    search store q ch k T = ([], []) := by
  unfold search
  rcases h with hq | hch | ⟨n, rfl, hn⟩
  · rw [if_pos hq]
  · by_cases h1 : pyStrip q = ""
    · rw [if_pos h1]
    · rw [if_neg h1]
      by_cases h2 : defaultTopK k T ≤ 0
      · rw [if_pos h2]
      · rw [if_neg h2, if_pos hch]
  · by_cases h1 : pyStrip q = ""
    · rw [if_pos h1]
    · rw [if_neg h1]
      have h2 : defaultTopK (some n) T ≤ 0 := hn
      rw [if_pos h2]

/-! ### Sortedness, threshold and length facts about the SQL model -/

theorem sqlSearchChannel_sorted (store : Store) (q ch : String) (k : Int)
    (T : Option ℚ) : (sqlSearchChannel store q ch k T).Pairwise distLE := by
  unfold sqlSearchChannel
  exact List.Pairwise.sublist (List.take_sublist _ _)
    (List.sorted_insertionSort distLE _)

theorem sqlSearchChannel_length (store : Store) (q ch : String) (k : Int)
    (T : Option ℚ) : (sqlSearchChannel store q ch k T).length ≤ k.toNat := by
  unfold sqlSearchChannel
  rw [List.length_take]
  exact min_le_left _ _

theorem sqlSearchChannel_dist_lt {store : Store} {q ch : String} {k : Int}
    {t : ℚ} {h : Hit} (hh : h ∈ sqlSearchChannel store q ch k (some t)) :
    h.distance < t := by
  unfold sqlSearchChannel at hh
  have h1 := (List.take_sublist _ _).subset hh
  have h2 := (List.perm_insertionSort distLE _).mem_iff.mp h1
  rw [List.mem_filter] at h2
  exact of_decide_eq_true h2.2

theorem search_result_cases (store : Store) (q ch : String) (k : Option Int)
    (T : Option ℚ) :
    (search store q ch k T).2 = []
    ∨ (search store q ch k T).2
        = sqlSearchChannel store (pyStrip q) (pyStrip ch)
            (defaultTopK k T) T := by
  unfold search
  by_cases h1 : pyStrip q = ""
  · rw [if_pos h1]; exact Or.inl rfl
  · rw [if_neg h1]
    by_cases h2 : defaultTopK k T ≤ 0
    · rw [if_pos h2]; exact Or.inl rfl
    · rw [if_neg h2]
      by_cases h3 : pyStrip ch = ""
      · rw [if_pos h3]; exact Or.inl rfl
      · rw [if_neg h3]; exact Or.inr rfl

/-- C2: with a supplied threshold `T` and a supplied `top_k = k`, every hit
returned by `search` has distance strictly below `T`, the returned sequence
is sorted ascending by distance, and its length is at most `k` (the cap is
applied after the threshold filter). -/
theorem C2_threshold_sorted_capped (store : Store) (q ch : String) (k : Int)
    (T : ℚ) (h : Hit) (hh : h ∈ (search store q ch (some k) (some T)).2) :
    h.distance < T
    ∧ ((search store q ch (some k) (some T)).2).Pairwise distLE
    ∧ ((search store q ch (some k) (some T)).2).length ≤ k.toNat := by
  rcases search_result_cases store q ch (some k) (some T) with hc | hc
  · rw [hc] at hh
    cases hh
  · rw [hc] at hh ⊢
    exact ⟨sqlSearchChannel_dist_lt hh, sqlSearchChannel_sorted _ _ _ _ _,
      sqlSearchChannel_length _ _ _ _ _⟩

theorem neighborsAfter_sorted (store : Store) (ch : String) (t : Int) :
    (neighborsAfter store ch t).Pairwise createdLE := by
  unfold neighborsAfter
  exact List.Pairwise.sublist (List.take_sublist _ _)
    (List.sorted_insertionSort createdLE _)

theorem neighborsAfter_length (store : Store) (ch : String) (t : Int) :
    (neighborsAfter store ch t).length ≤ 5 := by
  unfold neighborsAfter
  rw [List.length_take]
  exact min_le_left _ _

theorem latestMessages_sorted (store : Store) (ch : String) :
    (latestMessages store ch).Pairwise createdGE := by
  unfold latestMessages
  exact List.Pairwise.sublist (List.take_sublist _ _)
    (List.sorted_insertionSort createdGE _)

theorem latestMessages_length (store : Store) (ch : String) :
    (latestMessages store ch).length ≤ 5 := by
  unfold latestMessages
  rw [List.length_take]
  exact min_le_left _ _

theorem mem_smwnDict_iff {store : Store} {q ch : String} {k : Option Int}
    {T : Option ℚ} (hnd : (store.rows.map Msg.id).Nodup) (p : Nat × String) :
    p ∈ smwnDict store q ch k T
      ↔ p.1 ∈ keys (allPairs store q ch k T)
        ∧ textOf store p.1 = some p.2 := by
  rw [smwnDict_eq_insertAll hnd,
    mem_insertAll_iff _ _ (fun r hr => absurd hr (List.not_mem_nil r))
      (valdet_allPairs hnd) p]
  have hk : keys ([] : List (Nat × String)) = [] := rfl
  rw [hk]
  simp

/-- C5: the neighbor expansion computes exactly the id-keyed union of the
three sources — the search hits, and, for each hit, the up-to-5 messages of
the channel strictly after the hit in ascending `created_at` order, and the
up-to-5 most recent messages of the channel — with first-writer-wins
de-duplication: an entry is in the final dictionary exactly when its id
occurs in one of the three fetched sources and its text is the text the
table stores under that id. -/
theorem C5_expansion_structure (store : Store) (q ch : String)
    (k : Option Int) (T : Option ℚ) (t : Int) (m : Msg) (p : Nat × String)
    (hnd : (store.rows.map Msg.id).Nodup)
    (hm : m ∈ neighborsAfter store ch t) :
    (m.channel_id = ch ∧ t < m.created_at)
    ∧ (neighborsAfter store ch t).Pairwise createdLE
    ∧ (neighborsAfter store ch t).length ≤ 5
    ∧ (latestMessages store ch).Pairwise createdGE
    ∧ (latestMessages store ch).length ≤ 5
    ∧ (p ∈ smwnDict store q ch k T
        ↔ p.1 ∈ keys (allPairs store q ch k T)
          ∧ textOf store p.1 = some p.2) := by
  refine ⟨⟨(mem_neighborsAfter hm).2.1, (mem_neighborsAfter hm).2.2⟩,
    neighborsAfter_sorted store ch t, neighborsAfter_length store ch t,
    latestMessages_sorted store ch, latestMessages_length store ch,
    mem_smwnDict_iff hnd p⟩

/-! ### Order independence of the fetch phases -/

theorem mem_keys_flatten {L : List (List (Nat × String))} {a : Nat} :
    a ∈ keys L.flatten ↔ ∃ l ∈ L, a ∈ keys l := by
  simp only [keys, List.mem_map, List.mem_flatten]
  constructor
  · rintro ⟨p, ⟨l, hl, hpl⟩, he⟩
    exact ⟨l, hl, p, hpl, he⟩
  · rintro ⟨l, hl, p, hpl, he⟩
    exact ⟨p, ⟨l, hl, hpl⟩, he⟩

theorem valdet_of_perm_batches {store : Store}
    {L₁ L₂ : List (List (Nat × String))} (hp : L₁.Perm L₂)
    (hv : ValDet (textOf store) L₂.flatten) :
    ValDet (textOf store) L₁.flatten := by
  intro p hmem
  rcases List.mem_flatten.mp hmem with ⟨l, hl, hpl⟩
  exact hv p (List.mem_flatten.mpr ⟨l, hp.subset hl, hpl⟩)

theorem keys_seedDict_iff {store : Store} {q ch : String} {k : Option Int}
    {T : Option ℚ} (hnd : (store.rows.map Msg.id).Nodup) (a : Nat) :
    a ∈ keys (seedDict store q ch k T)
      ↔ a ∈ keys (hitPairs ((search store q ch k T).2)) := by
  unfold seedDict
  rw [seedFold_eq_insertAll _ _ (fun r hr => absurd hr (List.not_mem_nil r))
      (valdet_hitPairs hnd), mem_keys_insertAll]
  have hk : keys ([] : List (Nat × String)) = [] := rfl
  rw [hk]
  simp

theorem valdet_seedDict {store : Store} {q ch : String} {k : Option Int}
    {T : Option ℚ} (hnd : (store.rows.map Msg.id).Nodup) :
    ValDet (textOf store) (seedDict store q ch k T) := by
  unfold seedDict
  rw [seedFold_eq_insertAll _ _ (fun r hr => absurd hr (List.not_mem_nil r))
      (valdet_hitPairs hnd)]
  exact valdet_insertAll _ _ (fun r hr => absurd hr (List.not_mem_nil r))
    (valdet_hitPairs hnd)

/-- C6: the expansion dictionary has no duplicate message ids; the
expansion is deterministic (two runs on the same inputs agree); and
performing the per-hit neighbor insertions and the channel-tail insertion
in any other order yields the same set of entries (order independence via
id-keyed de-duplication). -/
theorem C6_dedup_idempotent_order_independent (store : Store) (q ch : String)
    (k : Option Int) (T : Option ℚ) (batches : List (List (Nat × String)))
    (hnd : (store.rows.map Msg.id).Nodup)
    (hperm : batches.Perm
      ((((search store q ch k T).2).map
          (fun h => msgPairs (neighborsAfter store ch h.created_at)))
        ++ [msgPairs (latestMessages store ch)])) :
    (keys (smwnDict store q ch k T)).Nodup
    ∧ search_messages_with_neighbors store q ch k T
        = search_messages_with_neighbors store q ch k T
    ∧ (insertAll (seedDict store q ch k T) batches.flatten).toFinset
        = (smwnDict store q ch k T).toFinset := by
  refine ⟨nodup_keys_smwnDict store q ch k T, rfl, ?_⟩
  have hvorig : ValDet (textOf store)
      (((((search store q ch k T).2).map
          (fun h => msgPairs (neighborsAfter store ch h.created_at)))
        ++ [msgPairs (latestMessages store ch)]).flatten) := by
    intro p hp
    rcases List.mem_flatten.mp hp with ⟨l, hl, hpl⟩
    rcases List.mem_append.mp hl with hl' | hl'
    · exact valdet_neighborFlatten hnd p (List.mem_flatten.mpr ⟨l, hl', hpl⟩)
    · rw [List.mem_singleton.mp hl'] at hpl
      exact valdet_msgPairs hnd (fun m hm => (mem_latestMessages hm).1) p hpl
  have hvbatch : ValDet (textOf store) batches.flatten :=
    valdet_of_perm_batches hperm hvorig
  ext p
  rw [List.mem_toFinset, List.mem_toFinset,
    mem_insertAll_iff _ _ (valdet_seedDict hnd) hvbatch p,
    mem_smwnDict_iff hnd p]
  constructor
  · rintro ⟨hkkey, hval⟩
    refine ⟨?_, hval⟩
    unfold allPairs
    rcases hkkey with hkkey | hkkey
    · rw [keys_seedDict_iff hnd] at hkkey
      simp only [keys, List.map_append, List.mem_append]
      exact Or.inl (Or.inl hkkey)
    · rcases mem_keys_flatten.mp hkkey with ⟨l, hl, hal⟩
      rcases List.mem_append.mp (hperm.subset hl) with hl' | hl'
      · simp only [keys, List.map_append, List.mem_append]
        exact Or.inl (Or.inr (by
          rw [show (((search store q ch k T).2).map
              (fun h => msgPairs (neighborsAfter store ch h.created_at))).flatten.map
                Prod.fst
              = keys (((search store q ch k T).2).map
                  (fun h => msgPairs (neighborsAfter store ch h.created_at))).flatten
            from rfl]
          exact mem_keys_flatten.mpr ⟨l, hl', hal⟩))
      · rw [List.mem_singleton.mp hl'] at hal
        simp only [keys, List.map_append, List.mem_append]
        exact Or.inr hal
  · rintro ⟨hkkey, hval⟩
    refine ⟨?_, hval⟩
    unfold allPairs at hkkey
    simp only [keys, List.map_append, List.mem_append] at hkkey
    rcases hkkey with (hkkey | hkkey) | hkkey
    · exact Or.inl ((keys_seedDict_iff hnd p.1).mpr hkkey)
    · refine Or.inr ?_
      have hk2 : p.1 ∈ keys (((search store q ch k T).2).map
          (fun h => msgPairs (neighborsAfter store ch h.created_at))).flatten :=
        hkkey
      rcases mem_keys_flatten.mp hk2 with ⟨l, hl, hal⟩
      exact mem_keys_flatten.mpr
        ⟨l, hperm.mem_iff.mpr (List.mem_append.mpr (Or.inl hl)), hal⟩
    · refine Or.inr (mem_keys_flatten.mpr
        ⟨msgPairs (latestMessages store ch),
          hperm.mem_iff.mpr (List.mem_append.mpr (Or.inr (List.mem_singleton.mpr rfl))),
          hkkey⟩)

/-! ### The channel tail survives an empty search -/

theorem keys_msgPairs (l : List Msg) : keys (msgPairs l) = l.map Msg.id := by
  unfold keys msgPairs
  rw [List.map_map]
  rfl

theorem snd_msgPairs (l : List Msg) :
    (msgPairs l).map Prod.snd = l.map Msg.text := by
  unfold msgPairs
  rw [List.map_map]
  rfl

theorem nodup_ids_latestMessages {store : Store} {ch : String}
    (hnd : (store.rows.map Msg.id).Nodup) :
    ((latestMessages store ch).map Msg.id).Nodup := by
  unfold latestMessages
  apply List.Nodup.sublist ((List.take_sublist 5 _).map Msg.id)
  have hperm := ((List.perm_insertionSort createdGE
    (store.rows.filter (fun m => m.channel_id == ch)))).map Msg.id
  rw [hperm.nodup_iff]
  exact List.Nodup.sublist ((List.filter_sublist _).map Msg.id) hnd

theorem latestMessages_length_eq (store : Store) (ch : String) :
    (latestMessages store ch).length
      = min 5 (store.rows.filter (fun m => m.channel_id == ch)).length := by
  unfold latestMessages
  rw [List.length_take, (List.perm_insertionSort createdGE _).length_eq]

/-- C10: whenever the inner `search` returns no hits — in particular for an
empty or whitespace-only query, which C7 shows yields no hits — the
neighbor expansion still returns the texts of the up-to-5 most recent
messages of the channel, because the channel-tail fetch runs
unconditionally after seeding; with at least one message in the channel
the result is therefore not empty. -/
theorem C10_tail_survives_empty_search (store : Store) (q ch : String)
    (k : Option Int) (T : Option ℚ)
    (hnd : (store.rows.map Msg.id).Nodup)
    (hempty : (search store q ch k T).2 = [])
    (hne : 0 < (store.rows.filter (fun m => m.channel_id == ch)).length) :
    search_messages_with_neighbors store q ch k T
      = (latestMessages store ch).map Msg.text
    ∧ (latestMessages store ch).length ≤ 5
    ∧ search_messages_with_neighbors store q ch k T ≠ [] := by
  have hdict : smwnDict store q ch k T = msgPairs (latestMessages store ch) := by
    unfold smwnDict seedDict
    rw [hempty]
    simp only [List.foldl_nil]
    apply insertAll_eq_append_of_nodup
    have hk : keys (([] : List (Nat × String))
        ++ msgPairs (latestMessages store ch))
        = (latestMessages store ch).map Msg.id := by
      rw [List.nil_append, keys_msgPairs]
    rw [hk]
    exact nodup_ids_latestMessages hnd
  have hmain : search_messages_with_neighbors store q ch k T
      = (latestMessages store ch).map Msg.text := by
    unfold search_messages_with_neighbors
    rw [hdict, snd_msgPairs]
  refine ⟨hmain, latestMessages_length store ch, ?_⟩
  rw [hmain]
  intro hcontra
  have hlen : ((latestMessages store ch).map Msg.text).length = 0 := by
    rw [hcontra]
    rfl
  rw [List.length_map, latestMessages_length_eq] at hlen
  omega

/-! ### Concrete store used by the witnesses -/

def mW1 : Msg :=
  { id := 1, channel_id := "c", user_id := "u", text := "hello",
    created_at := 10 }

def mW2 : Msg :=
  { id := 2, channel_id := "c", user_id := "u", text := "follow up",
    created_at := 20 }

def mW3 : Msg :=
  { id := 3, channel_id := "c", user_id := "v", text := "latest",
    created_at := 30 }

def mW4 : Msg :=
  { id := 4, channel_id := "d", user_id := "v", text := "other channel",
    created_at := 40 }

/-- A small concrete store: three messages in channel c, one elsewhere,
with fixed distances to any query. -/
def storeW : Store :=
  { rows := [mW1, mW2, mW3, mW4],
    dist := fun _ m =>
      if m.id = 1 then mkRat 1 4
      else if m.id = 2 then mkRat 3 4
      else mkRat 9 10 }

/-- Witness for C2 at a concrete store: the single hit below the 0.5
threshold is returned, sorted and capped. -/
theorem C2_witness :
    mkHit storeW "q" mW1 ∈ (search storeW "q" "c" (some 5) (some (mkRat 1 2))).2
    ∧ ((mkHit storeW "q" mW1).distance < mkRat 1 2
      ∧ ((search storeW "q" "c" (some 5) (some (mkRat 1 2))).2).Pairwise distLE
      ∧ ((search storeW "q" "c" (some 5) (some (mkRat 1 2))).2).length
          ≤ (5 : Int).toNat) :=
  ⟨by decide, C2_threshold_sorted_capped storeW "q" "c" 5 (mkRat 1 2)
    (mkHit storeW "q" mW1) (by decide)⟩

/-- Witness for C5 at a concrete store, evaluated at the neighbor mW2 and
the entry for message id 2. -/
theorem C5_witness :
    ((storeW.rows.map Msg.id).Nodup ∧ mW2 ∈ neighborsAfter storeW "c" 10)
    ∧ ((mW2.channel_id = "c" ∧ 10 < mW2.created_at)
      ∧ (neighborsAfter storeW "c" 10).Pairwise createdLE
      ∧ (neighborsAfter storeW "c" 10).length ≤ 5
      ∧ (latestMessages storeW "c").Pairwise createdGE
      ∧ (latestMessages storeW "c").length ≤ 5
      ∧ ((2, "follow up") ∈ smwnDict storeW "q" "c" (some 2) (some (mkRat 1 2))
          ↔ (2 : Nat) ∈ keys (allPairs storeW "q" "c" (some 2) (some (mkRat 1 2)))
            ∧ textOf storeW 2 = some "follow up")) :=
  ⟨⟨by decide, by decide⟩,
    C5_expansion_structure storeW "q" "c" (some 2) (some (mkRat 1 2)) 10 mW2
      (2, "follow up") (by decide) (by decide)⟩

/-- Witness for C6 at a concrete store: the tail batch and the neighbor
batch inserted in the reverse order yield the same entry set. -/
theorem C6_witness :
    ((storeW.rows.map Msg.id).Nodup
      ∧ ([msgPairs (latestMessages storeW "c"),
          msgPairs (neighborsAfter storeW "c" 10)]).Perm
          ((((search storeW "q" "c" (some 2) (some (mkRat 1 2))).2).map
              (fun h => msgPairs (neighborsAfter storeW "c" h.created_at)))
            ++ [msgPairs (latestMessages storeW "c")]))
    ∧ ((keys (smwnDict storeW "q" "c" (some 2) (some (mkRat 1 2)))).Nodup
      ∧ search_messages_with_neighbors storeW "q" "c" (some 2) (some (mkRat 1 2))
          = search_messages_with_neighbors storeW "q" "c" (some 2) (some (mkRat 1 2))
      ∧ (insertAll (seedDict storeW "q" "c" (some 2) (some (mkRat 1 2)))
            ([msgPairs (latestMessages storeW "c"),
              msgPairs (neighborsAfter storeW "c" 10)]).flatten).toFinset
          = (smwnDict storeW "q" "c" (some 2) (some (mkRat 1 2))).toFinset) :=
  ⟨⟨by decide, by decide⟩,
    C6_dedup_idempotent_order_independent storeW "q" "c" (some 2)
      (some (mkRat 1 2))
      [msgPairs (latestMessages storeW "c"),
        msgPairs (neighborsAfter storeW "c" 10)]
      (by decide) (by decide)⟩

/-- Witness for C7: a whitespace-only query is rejected with no effects. -/
theorem C7_witness :
    (pyStrip "   " = "" ∨ pyStrip "general" = ""
      ∨ ∃ n, (none : Option Int) = some n ∧ n ≤ 0)
    ∧ search storeW "   " "general" none none = ([], []) :=
  ⟨Or.inl (by decide),
    C7_validation_before_io storeW "   " "general" none none (Or.inl (by decide))⟩

/-- Witness for C10: with an empty query the expansion still returns the
channel tail texts. -/
theorem C10_witness :
    ((storeW.rows.map Msg.id).Nodup
      ∧ (search storeW "" "c" (some 5) none).2 = []
      ∧ 0 < (storeW.rows.filter (fun m => m.channel_id == "c")).length)
    ∧ (search_messages_with_neighbors storeW "" "c" (some 5) none
          = (latestMessages storeW "c").map Msg.text
      ∧ (latestMessages storeW "c").length ≤ 5
      ∧ search_messages_with_neighbors storeW "" "c" (some 5) none ≠ []) :=
  ⟨⟨by decide, by decide, by decide⟩,
    C10_tail_survives_empty_search storeW "" "c" (some 5) none
      (by decide) (by decide) (by decide)⟩

end SlackAgent
